import Mathlib

/-!
Shallow embedding of the maubot-hateheif plugin (src/hateheif.py).

The plugin reacts to image/file messages, and when the declared MIME type is
exactly "image/heic" it downloads the media (decrypting and hash-verifying it
when the message carries an encrypted-file reference), re-encodes it as JPEG
via the image library, measures the dimensions of the re-encoded bytes, and
republishes the converted image on the same encrypted/plain path it came in on.

External collaborators (the matrix client, the mautrix attachment crypto and
the PIL codec) are modelled as an explicit environment of functions; the
handler itself is translated branch for branch from the Python source.
Observable side effects (downloads, uploads, sent messages) are collected in
an `Effects` record, and a Python exception is modelled as an `Except.error`
outcome.  In-place mutation of `evt.content.info` (lines 168-169 of the
source) is modelled by returning the final state of the event content.
-/

/-- Raw media bytes, abstracted as a list of byte values. -/
abbrev Bytes := List Nat

/-- `EncryptedFile.key` in mautrix is a JSON web key object whose `key` field
holds the actual key material (the source reads `file.key.key`). -/
structure JSONWebKey where
  key : String
  deriving DecidableEq

/-- mautrix `EncryptedFile`: the encrypted media reference carried by a
message (`MediaMessageEventContent.file`). -/
structure EncryptedFile where
  key : JSONWebKey
  iv : String
  hashes : List (String × String)
  url : String
  version : String
  deriving DecidableEq

/-- mautrix message types relevant to the handler; `other` stands for any
message type that is neither `IMAGE` nor `FILE`. -/
inductive MessageType where
  | image
  | file
  | other
  deriving DecidableEq

/-- mautrix `ImageInfo` / `FileInfo`: media metadata declared by the sender
(all fields optional in the wire format). -/
structure ImageInfo where
  mimetype : Option String
  width : Option Nat
  height : Option Nat
  deriving DecidableEq

/-- mautrix `MediaMessageEventContent`: `url` is the plain locator, `file`
the encrypted reference; a well-formed message has exactly one of them. -/
structure MediaMessageEventContent where
  msgtype : MessageType
  body : String
  url : Option String
  file : Option EncryptedFile
  info : Option ImageInfo
  deriving DecidableEq

/-- The triggering maubot `MessageEvent` (the fields the handler reads). -/
structure MessageEvent where
  room_id : String
  content : MediaMessageEventContent
  deriving DecidableEq

/-- A PIL image handle: `size[0]`/`size[1]` are modelled as `width`/`height`. -/
structure PILImage where
  format : String
  width : Nat
  height : Nat
  mode : String
  deriving DecidableEq

/-- The external collaborators: matrix client download/upload, mautrix
attachment crypto, and the PIL decode/encode steps.
`decrypt_attachment` verifies the expected sha256 hash and fails
(`IntegrityMismatch`) when verification fails; `encrypt_attachment` returns
the ciphertext together with a freshly generated encrypted-file metadata
record (key/iv/hashes/version); `image_open` fails on undecodable bytes;
`image_save_jpeg` is `Image.save(..., format="JPEG")`. -/
structure Env where
  download_media : String → Bytes
  decrypt_attachment : Bytes → String → String → String → Except Unit Bytes
  encrypt_attachment : Bytes → Bytes × EncryptedFile
  image_open : Bytes → Except Unit PILImage
  image_save_jpeg : PILImage → Bytes
  upload_media : Bytes → String → String → String

/-- Python exceptions the handler can raise, by provenance:
`attributeError` = `content.info.mimetype` with `info = None`;
`keyError` = `file.hashes['sha256']` with the key missing;
`integrityMismatch` = `decrypt_attachment` hash-verification failure;
`decodeError` = `Image.open` failure. -/
inductive PipelineError where
  | attributeError
  | keyError
  | integrityMismatch
  | decodeError
  deriving DecidableEq

/-- Terminal outcome of a run that did not raise: one of the early-return
skips, or a published message on the encrypted (`true`) or plain (`false`)
path. -/
inductive Outcome where
  | skippedRoom
  | skippedKind
  | skippedMime
  | skippedNoMedia
  | published (encrypted : Bool)
  deriving DecidableEq

/-- Observable side effects of one handler run: URLs downloaded, payloads
uploaded (bytes, mime type, filename), and messages sent (room, content). -/
structure Effects where
  downloads : List String
  uploads : List (Bytes × String × String)
  sent : List (String × MediaMessageEventContent)
  deriving DecidableEq

/-- No side effects. -/
def Effects.nil : Effects := ⟨[], [], []⟩

instance exceptDecEq {ε α : Type} [DecidableEq ε] [DecidableEq α] :
    DecidableEq (Except ε α) := fun a b =>
  match a, b with
  | .ok x, .ok y =>
    if h : x = y then isTrue (h ▸ rfl) else isFalse (fun hc => h (Except.ok.inj hc))
  | .error x, .error y =>
    if h : x = y then isTrue (h ▸ rfl) else isFalse (fun hc => h (Except.error.inj hc))
  | .ok _, .error _ => isFalse (fun hc => Except.noConfusion hc)
  | .error _, .ok _ => isFalse (fun hc => Except.noConfusion hc)

/-- Result of one handler run: effects, outcome (or raised exception), and
the final state of `evt.content` (the handler mutates `content.info`). -/
structure RunResult where
  effects : Effects
  outcome : Except PipelineError Outcome
  finalContent : MediaMessageEventContent
  deriving DecidableEq

/-- Python `dict` lookup `d[k]` on the hashes dict, as an `Option`. -/
def dictGet (d : List (String × String)) (k : String) : Option String :=
  match d with
  | [] => none
  | (k2, v2) :: rest => if k2 = k then some v2 else dictGet rest k

/-- Python truthiness of an optional string (`None` and `""` are falsy). -/
def truthyStr : Option String → Bool
  | none => false
  | some s => s != ""

/-- Python truthiness of the optional rooms list (`None` and `[]` falsy). -/
def truthyRooms : Option (List String) → Bool
  | none => false
  | some rs => !rs.isEmpty

/-- `download_unencrypted_media` (src/hateheif.py lines 38-47). -/
def download_unencrypted_media (env : Env) (url : String) : Bytes :=
  env.download_media url

/-- `download_encrypted_media` (src/hateheif.py lines 21-35): download the
ciphertext from `file.url`, then decrypt with `file.key.key` verifying
`file.hashes['sha256']` under `file.iv`. -/
def download_encrypted_media (env : Env) (f : EncryptedFile) : Except PipelineError Bytes :=
  let data := env.download_media f.url
  match dictGet f.hashes "sha256" with
  | none => .error .keyError
  | some hsh =>
    match env.decrypt_attachment data f.key.key hsh f.iv with
    | .error _ => .error .integrityMismatch
    | .ok plain => .ok plain

/-- `send_encrypted_message` (src/hateheif.py lines 50-82): upload the
ciphertext `img_enc[0]`, then send a message whose `file` field carries the
fresh key/iv/hashes/version from `img_enc[1]` plus the upload URI. -/
def send_encrypted_message (env : Env) (img_enc : Bytes × EncryptedFile)
    (room_id : String) (info : ImageInfo) : Effects :=
  let uri := env.upload_media img_enc.1 "image/jpeg" "image.jpg"
  let content : MediaMessageEventContent :=
    { msgtype := .image
      body := "image.jpg"
      url := none
      file := some { key := img_enc.2.key, iv := img_enc.2.iv, hashes := img_enc.2.hashes,
                     url := uri, version := img_enc.2.version }
      info := some { mimetype := some "image/jpeg", width := info.width, height := info.height } }
  { downloads := [], uploads := [(img_enc.1, "image/jpeg", "image.jpg")],
    sent := [(room_id, content)] }

/-- `send_unencrypted_message` (src/hateheif.py lines 85-111): upload the
plain JPEG bytes and send a message referencing them by plain `url`. -/
def send_unencrypted_message (env : Env) (img : Bytes)
    (room_id : String) (info : ImageInfo) : Effects :=
  let uri := env.upload_media img "image/jpeg" "image.jpg"
  let content : MediaMessageEventContent :=
    { msgtype := .image
      body := "image.jpg"
      url := some uri
      file := none
      info := some { mimetype := some "image/jpeg", width := info.width, height := info.height } }
  { downloads := [], uploads := [(img, "image/jpeg", "image.jpg")],
    sent := [(room_id, content)] }

/-- The conversion-and-publish tail of the handler (src/hateheif.py lines
160-186): decode the fetched bytes, re-encode as JPEG, decode the JPEG again
to measure it, overwrite `content.info.width/height` in place with the
measured size, then publish on the path selected by `is_enc`. -/
def convert_and_send (env : Env) (room_id : String) (content : MediaMessageEventContent)
    (info : ImageInfo) (downloads : List String) (data : Bytes) (is_enc : Bool) : RunResult :=
  match env.image_open data with
  | .error _ => ⟨⟨downloads, [], []⟩, .error .decodeError, content⟩
  | .ok img_in =>
    let img := env.image_save_jpeg img_in
    match env.image_open img with
    | .error _ => ⟨⟨downloads, [], []⟩, .error .decodeError, content⟩
    | .ok img_tst =>
      let info2 : ImageInfo := { info with width := some img_tst.width, height := some img_tst.height }
      let content2 : MediaMessageEventContent := { content with info := some info2 }
      if is_enc then
        let img_enc := env.encrypt_attachment img
        let eff := send_encrypted_message env img_enc room_id info2
        ⟨⟨downloads, eff.uploads, eff.sent⟩, .ok (.published true), content2⟩
      else
        let eff := send_unencrypted_message env img room_id info2
        ⟨⟨downloads, eff.uploads, eff.sent⟩, .ok (.published false), content2⟩

/-- `HateHeifBot.hate_heif_message` (src/hateheif.py lines 126-186),
translated branch for branch: rooms allow-list check, msgtype double check,
`content.info.mimetype` access (raises when `info` is absent), exact MIME
check against "image/heic", then the plain-url / encrypted-file fetch split
followed by `convert_and_send`. -/
def hate_heif_message (env : Env) (rooms : Option (List String)) (evt : MessageEvent) : RunResult :=
  let content := evt.content
  if truthyRooms rooms = true ∧ evt.room_id ∉ rooms.getD [] then
    ⟨Effects.nil, .ok .skippedRoom, content⟩
  else if content.msgtype ≠ MessageType.image ∧ content.msgtype ≠ MessageType.file then
    ⟨Effects.nil, .ok .skippedKind, content⟩
  else
    match content.info with
    | none => ⟨Effects.nil, .error .attributeError, content⟩
    | some info =>
      if info.mimetype ≠ some "image/heic" then
        ⟨Effects.nil, .ok .skippedMime, content⟩
      else
        if truthyStr content.url = true then
          let data := download_unencrypted_media env (content.url.getD "")
          convert_and_send env evt.room_id content info [content.url.getD ""] data false
        else
          match content.file with
          | some f =>
            match download_encrypted_media env f with
            | .error e => ⟨⟨[f.url], [], []⟩, .error e, content⟩
            | .ok data => convert_and_send env evt.room_id content info [f.url] data true
          | none => ⟨Effects.nil, .ok .skippedNoMedia, content⟩

/-- `HateHeifBot.start` (src/hateheif.py lines 119-122): the stored rooms
list is the configured one when truthy, otherwise `None`. -/
def HateHeifBot_start (cfg : Option (List String)) : Option (List String) :=
  if truthyRooms cfg = true then cfg else none

/-- The encryption status as determined at fetch time (src lines 150-158):
a truthy plain `url` selects the plain path, else a present `file` selects
the encrypted path; `none` when the message carries neither. -/
def fetch_time_encrypted (c : MediaMessageEventContent) : Option Bool :=
  if truthyStr c.url = true then some false
  else match c.file with
    | some _ => some true
    | none => none

/-- The bytes the fetch stage hands to the codec, when the fetch succeeds. -/
def fetch_data (env : Env) (c : MediaMessageEventContent) : Option Bytes :=
  if truthyStr c.url = true then some (env.download_media (c.url.getD ""))
  else match c.file with
    | some f => (download_encrypted_media env f).toOption
    | none => none

/-- The room allow-list check passes (the message is in scope). -/
def roomPass (rooms : Option (List String)) (rid : String) : Prop :=
  truthyRooms rooms = true → rid ∈ rooms.getD []

instance roomPassDec (rooms : Option (List String)) (rid : String) :
    Decidable (roomPass rooms rid) :=
  if h : truthyRooms rooms = true then
    if hm : rid ∈ rooms.getD [] then isTrue (fun _ => hm)
    else isFalse (fun hp => hm (hp h))
  else isTrue (fun hc => absurd hc h)

/-- The msgtype double check passes. -/
def kindPass (c : MediaMessageEventContent) : Prop :=
  c.msgtype = MessageType.image ∨ c.msgtype = MessageType.file

/-- A concrete environment for evaluating the pipeline on closed inputs: downloads return a fixed blob, decryption succeeds exactly when the expected hash is "h0", encryption prepends a byte and returns fresh metadata (key "k-new", iv "iv-new"), and decoding always yields a 7 by 9 image. -/
def env0 : Env :=
  { download_media := fun _ => [0]
    decrypt_attachment := fun data _ hsh _ => if hsh = "h0" then .ok data else .error ()
    encrypt_attachment := fun b => (0 :: b,
      { key := ⟨"k-new"⟩, iv := "iv-new", hashes := [("sha256", "h-new")], url := "",
        version := "v2" })
    image_open := fun _ => .ok { format := "HEIF", width := 7, height := 9, mode := "RGB" }
    image_save_jpeg := fun _ => [1, 2, 3]
    upload_media := fun _ _ _ => "mxc://new" }

/-- A concrete inbound encrypted-file reference whose stored hash matches what `env0` accepts. -/
def fOld : EncryptedFile :=
  { key := ⟨"k-old"⟩, iv := "iv-old", hashes := [("sha256", "h0")], url := "mxc://old",
    version := "v1" }

/-- A concrete inbound encrypted-file reference whose stored hash `env0` rejects (hash verification fails). -/
def fBad : EncryptedFile :=
  { key := ⟨"k-old"⟩, iv := "iv-old", hashes := [("sha256", "h-tampered")], url := "mxc://old",
    version := "v1" }

/-- A plain (unencrypted) eligible image message with declared size 5 by 5. -/
def evtPlain : MessageEvent :=
  { room_id := "!r:x"
    content := { msgtype := .image, body := "b", url := some "mxc://plain", file := none,
                 info := some { mimetype := some "image/heic", width := some 5, height := some 5 } } }

/-- An encrypted eligible message of kind FILE referencing `fOld`. -/
def evtEnc : MessageEvent :=
  { room_id := "!r:x"
    content := { msgtype := .file, body := "b", url := none, file := some fOld,
                 info := some { mimetype := some "image/heic", width := some 5, height := some 5 } } }

/-- An encrypted eligible message referencing the tampered `fBad`. -/
def evtEncBad : MessageEvent :=
  { room_id := "!r:x"
    content := { msgtype := .image, body := "b", url := none, file := some fBad,
                 info := some { mimetype := some "image/heic", width := some 5, height := some 5 } } }

/-- An image message with no media info object at all. -/
def evtNoInfo : MessageEvent :=
  { room_id := "!r:x"
    content := { msgtype := .image, body := "b", url := some "mxc://plain", file := none,
                 info := none } }

/-- A message whose declared MIME type differs from "image/heic" only by case. -/
def evtBadMime : MessageEvent :=
  { room_id := "!r:x"
    content := { msgtype := .image, body := "b", url := some "mxc://plain", file := none,
                 info := some { mimetype := some "image/HEIC", width := some 5, height := some 5 } } }

/-- An eligible message arriving from room "!xyz:example.org". -/
def evtXyz : MessageEvent :=
  { room_id := "!xyz:example.org"
    content := { msgtype := .image, body := "b", url := some "mxc://plain", file := none,
                 info := some { mimetype := some "image/heic", width := some 5, height := some 5 } } }

/-- Characterization of every run that ends in a `published e` outcome: the message passed all eligibility checks, the fetch took the plain path exactly when `e = false` and the encrypted path exactly when `e = true`, both decodes succeeded, and the full result (download list, publish effects, mutated final content) is determined by those facts. -/
theorem published_spec (env : Env) (rooms : Option (List String)) (evt : MessageEvent) (e : Bool)
    (h : (hate_heif_message env rooms evt).outcome = .ok (.published e)) :
    ∃ i dl data img_in img_tst,
      evt.content.info = some i ∧
      i.mimetype = some "image/heic" ∧
      ((e = false ∧ truthyStr evt.content.url = true ∧ dl = evt.content.url.getD "" ∧
          data = env.download_media dl) ∨
       (e = true ∧ truthyStr evt.content.url = false ∧
          ∃ f, evt.content.file = some f ∧ dl = f.url ∧
            download_encrypted_media env f = .ok data)) ∧
      env.image_open data = .ok img_in ∧
      env.image_open (env.image_save_jpeg img_in) = .ok img_tst ∧
      (let img := env.image_save_jpeg img_in
       let i2 : ImageInfo := { i with width := some img_tst.width, height := some img_tst.height }
       let eff := if e then send_encrypted_message env (env.encrypt_attachment img) evt.room_id i2
                  else send_unencrypted_message env img evt.room_id i2
       hate_heif_message env rooms evt =
         ⟨⟨[dl], eff.uploads, eff.sent⟩, .ok (.published e), { evt.content with info := some i2 }⟩) := by
  simp only [hate_heif_message] at h
  by_cases hroom : truthyRooms rooms = true ∧ evt.room_id ∉ rooms.getD []
  · rw [if_pos hroom] at h; simp at h
  rw [if_neg hroom] at h
  by_cases hkind : evt.content.msgtype ≠ MessageType.image ∧ evt.content.msgtype ≠ MessageType.file
  · rw [if_pos hkind] at h; simp at h
  rw [if_neg hkind] at h
  cases hI : evt.content.info with
  | none => rw [hI] at h; simp at h
  | some i =>
  rw [hI] at h
  simp only [] at h
  by_cases hmime : i.mimetype ≠ some "image/heic"
  · rw [if_pos hmime] at h; simp at h
  rw [if_neg hmime] at h
  push_neg at hmime
  by_cases hurl : truthyStr evt.content.url = true
  · rw [if_pos hurl] at h
    simp only [convert_and_send] at h
    cases ho1 : env.image_open (download_unencrypted_media env (evt.content.url.getD "")) with
    | error u => rw [ho1] at h; simp at h
    | ok img_in =>
    rw [ho1] at h
    simp only [] at h
    cases ho2 : env.image_open (env.image_save_jpeg img_in) with
    | error u => rw [ho2] at h; simp at h
    | ok img_tst =>
    rw [ho2] at h
    simp only [if_false, Bool.false_eq_true, if_neg] at h
    simp at h
    subst h
    refine ⟨i, evt.content.url.getD "", download_unencrypted_media env (evt.content.url.getD ""),
      img_in, img_tst, rfl, hmime, Or.inl ⟨rfl, hurl, rfl, rfl⟩, ho1, ho2, ?_⟩
    simp only [hate_heif_message, hI]
    rw [if_neg hroom, if_neg hkind]
    rw [if_neg (not_not_intro hmime), if_pos hurl]
    simp only [convert_and_send, ho1, ho2]
    simp
  · rw [if_neg hurl] at h
    replace hurl : truthyStr evt.content.url = false := by
      cases hx : truthyStr evt.content.url
      · rfl
      · exact absurd hx hurl
    cases hF : evt.content.file with
    | none => rw [hF] at h; simp at h
    | some f =>
    rw [hF] at h
    simp only [] at h
    cases hdl : download_encrypted_media env f with
    | error u => rw [hdl] at h; simp at h
    | ok data =>
    rw [hdl] at h
    simp only [convert_and_send] at h
    cases ho1 : env.image_open data with
    | error u => rw [ho1] at h; simp at h
    | ok img_in =>
    rw [ho1] at h
    simp only [] at h
    cases ho2 : env.image_open (env.image_save_jpeg img_in) with
    | error u => rw [ho2] at h; simp at h
    | ok img_tst =>
    rw [ho2] at h
    simp at h
    subst h
    refine ⟨i, f.url, data, img_in, img_tst, rfl, hmime,
      Or.inr ⟨rfl, hurl, f, ?_, rfl, hdl⟩, ho1, ho2, ?_⟩
    · rfl
    simp only [hate_heif_message, hI]
    rw [if_neg hroom, if_neg hkind]
    rw [if_neg (not_not_intro hmime), if_neg (by simp [hurl])]
    rw [hF]
    simp only [hdl]
    simp only [convert_and_send, ho1, ho2]
    simp [hF]

/-- Every run either leaves the event content untouched or ends in a `published` outcome (the in-place mutation of `content.info` happens only on the successful publish paths). -/
theorem final_content_cases (env : Env) (rooms : Option (List String)) (evt : MessageEvent) :
    (hate_heif_message env rooms evt).finalContent = evt.content ∨
    ∃ e, (hate_heif_message env rooms evt).outcome = .ok (.published e) := by
  simp only [hate_heif_message, convert_and_send]
  split
  · left; rfl
  split
  · left; rfl
  split
  · left; rfl
  split
  · left; rfl
  split
  · split
    · left; rfl
    · split
      · left; rfl
      · right; exact ⟨false, by simp⟩
  · split
    · split
      · left; rfl
      · split
        · left; rfl
        · split
          · left; rfl
          · right; exact ⟨true, by simp⟩
    · left; rfl

/-- A message that passes the room and kind checks but whose declared MIME type is not exactly "image/heic" is skipped with no side effects. -/
theorem run_skip_mime (env : Env) (rooms : Option (List String)) (evt : MessageEvent)
    (i : ImageInfo)
    (hroom : roomPass rooms evt.room_id) (hkind : kindPass evt.content)
    (hinfo : evt.content.info = some i) (hmime : i.mimetype ≠ some "image/heic") :
    hate_heif_message env rooms evt = ⟨Effects.nil, .ok .skippedMime, evt.content⟩ := by
  simp only [hate_heif_message, hinfo]
  rw [if_neg (fun hc => hc.2 (hroom hc.1)),
    if_neg (fun hc => match hkind with | .inl hh => hc.1 hh | .inr hh => hc.2 hh),
    if_pos hmime]

/-- A message that passes the room and kind checks but carries no media info object makes the handler raise an attribute error (line 144 of the source reads `content.info.mimetype`). -/
theorem run_info_none (env : Env) (rooms : Option (List String)) (evt : MessageEvent)
    (hroom : roomPass rooms evt.room_id) (hkind : kindPass evt.content)
    (hinfo : evt.content.info = none) :
    hate_heif_message env rooms evt = ⟨Effects.nil, .error .attributeError, evt.content⟩ := by
  simp only [hate_heif_message, hinfo]
  rw [if_neg (fun hc => hc.2 (hroom hc.1)),
    if_neg (fun hc => match hkind with | .inl hh => hc.1 hh | .inr hh => hc.2 hh)]

/-- On the encrypted fetch path the run reduces to the result of `download_encrypted_media` followed, on success, by the conversion tail. -/
theorem run_enc_fetch (env : Env) (rooms : Option (List String)) (evt : MessageEvent)
    (i : ImageInfo) (f : EncryptedFile)
    (hroom : roomPass rooms evt.room_id) (hkind : kindPass evt.content)
    (hinfo : evt.content.info = some i) (hmime : i.mimetype = some "image/heic")
    (hurl : truthyStr evt.content.url = false) (hfile : evt.content.file = some f) :
    hate_heif_message env rooms evt =
      match download_encrypted_media env f with
      | .error er => ⟨⟨[f.url], [], []⟩, .error er, evt.content⟩
      | .ok data => convert_and_send env evt.room_id evt.content i [f.url] data true := by
  simp only [hate_heif_message, hinfo, hfile]
  rw [if_neg (fun hc => hc.2 (hroom hc.1)),
    if_neg (fun hc => match hkind with | .inl hh => hc.1 hh | .inr hh => hc.2 hh),
    if_neg (not_not_intro hmime), if_neg (by simp [hurl])]

/-- With no configured allow-list, no run is ever skipped for the room check. -/
theorem no_room_skip (env : Env) (evt : MessageEvent) :
    (hate_heif_message env none evt).outcome ≠ .ok .skippedRoom := by
  simp only [hate_heif_message, convert_and_send]
  rw [if_neg (fun hc => by simp [truthyRooms] at hc)]
  split
  · simp
  split
  · simp
  split
  · simp
  split
  · split
    · simp
    · split
      · simp
      · simp
  · split
    · split
      · simp
      · split
        · simp
        · split
          · simp
          · simp
    · simp

/-- Claim C1: for every pipeline run that fetched its media on the encrypted path and published, the bytes handed to the media upload are exactly the ciphertext produced by the fresh encryption of the transcoded JPEG (the plaintext is never uploaded), the sent message carries an encrypted-file field with the newly generated key/iv/hashes/version and no plain locator, and — assuming the encryption primitive generates key/iv distinct from the inbound ones — the published key/iv differ from the input message's key/iv. -/
theorem C1_encrypted_no_leak (env : Env) (rooms : Option (List String)) (evt : MessageEvent)
    (h : (hate_heif_message env rooms evt).outcome = .ok (.published true))
    (hfresh : ∀ b f, evt.content.file = some f →
      (env.encrypt_attachment b).2.key ≠ f.key ∧ (env.encrypt_attachment b).2.iv ≠ f.iv) :
    ∃ f data img_in,
      evt.content.file = some f ∧
      download_encrypted_media env f = .ok data ∧
      env.image_open data = .ok img_in ∧
      (let img := env.image_save_jpeg img_in
       let img_enc := env.encrypt_attachment img
       (hate_heif_message env rooms evt).effects.uploads =
         [(img_enc.1, "image/jpeg", "image.jpg")] ∧
       ∃ m, (hate_heif_message env rooms evt).effects.sent = [(evt.room_id, m)] ∧
         m.url = none ∧
         m.file = some { key := img_enc.2.key, iv := img_enc.2.iv, hashes := img_enc.2.hashes,
                         url := env.upload_media img_enc.1 "image/jpeg" "image.jpg",
                         version := img_enc.2.version } ∧
         img_enc.2.key ≠ f.key ∧ img_enc.2.iv ≠ f.iv) := by
  obtain ⟨i, dl, data, img_in, img_tst, hI, hmime, hpath, ho1, ho2, hres⟩ :=
    published_spec env rooms evt true h
  simp only [if_true] at hres
  rcases hpath with ⟨he, _⟩ | ⟨_, hurl, f, hF, hdl, hdd⟩
  · cases he
  · refine ⟨f, data, img_in, hF, hdd, ho1, ?_⟩
    simp only []
    rw [hres]
    simp only [send_encrypted_message]
    exact ⟨True.intro, _, rfl, rfl, rfl, (hfresh _ f hF).1, (hfresh _ f hF).2⟩

/-- Witness for C1: a concrete encrypted run through `env0` publishing with fresh key material. -/
theorem C1_witness :
    (hate_heif_message env0 none evtEnc).outcome = Except.ok (Outcome.published true) ∧
    ∃ f data img_in,
      evtEnc.content.file = some f ∧
      download_encrypted_media env0 f = .ok data ∧
      env0.image_open data = .ok img_in ∧
      (let img := env0.image_save_jpeg img_in
       let img_enc := env0.encrypt_attachment img
       (hate_heif_message env0 none evtEnc).effects.uploads =
         [(img_enc.1, "image/jpeg", "image.jpg")] ∧
       ∃ m, (hate_heif_message env0 none evtEnc).effects.sent = [(evtEnc.room_id, m)] ∧
         m.url = none ∧
         m.file = some { key := img_enc.2.key, iv := img_enc.2.iv, hashes := img_enc.2.hashes,
                         url := env0.upload_media img_enc.1 "image/jpeg" "image.jpg",
                         version := img_enc.2.version } ∧
         img_enc.2.key ≠ f.key ∧ img_enc.2.iv ≠ f.iv) :=
  ⟨by decide, C1_encrypted_no_leak env0 none evtEnc (by decide)
    (fun b f hf => by
      have he : fOld = f := by simpa [evtEnc] using hf
      subst he
      constructor
      · simp only [env0, fOld]
        decide
      · simp only [env0, fOld]
        decide)⟩

/-- Claim C2: for every successful `published e` outcome, `e` equals the encryption flag determined at fetch time from the inbound media reference; the pipeline never flips a message between encrypted and plain. -/
theorem C2_no_mode_flip (env : Env) (rooms : Option (List String)) (evt : MessageEvent) (e : Bool)
    (h : (hate_heif_message env rooms evt).outcome = .ok (.published e)) :
    fetch_time_encrypted evt.content = some e := by
  obtain ⟨i, dl, data, img_in, img_tst, hI, hmime, hpath, ho1, ho2, hres⟩ :=
    published_spec env rooms evt e h
  rcases hpath with ⟨he, hurl, _, _⟩ | ⟨he, hurl, f, hF, _, _⟩
  · subst he; simp [fetch_time_encrypted, hurl]
  · subst he; simp [fetch_time_encrypted, hurl, hF]

/-- Witness for C2: a concrete plain run publishes with the plain flag. -/
theorem C2_witness :
    (hate_heif_message env0 none evtPlain).outcome = .ok (.published false) ∧
    fetch_time_encrypted evtPlain.content = some false :=
  ⟨by decide, C2_no_mode_flip env0 none evtPlain false (by decide)⟩

/-- Claim C3: on the encrypted fetch path the downloaded bytes are decrypted and verified against the stored sha256 content hash; if verification fails the run aborts with `integrityMismatch` having uploaded nothing and sent nothing, and any published outcome requires the verification to have succeeded. -/
theorem C3_integrity (env : Env) (rooms : Option (List String)) (evt : MessageEvent)
    (i : ImageInfo) (f : EncryptedFile) (hsh : String)
    (hroom : roomPass rooms evt.room_id) (hkind : kindPass evt.content)
    (hinfo : evt.content.info = some i) (hmime : i.mimetype = some "image/heic")
    (hurl : truthyStr evt.content.url = false) (hfile : evt.content.file = some f)
    (hhash : dictGet f.hashes "sha256" = some hsh) :
    (env.decrypt_attachment (env.download_media f.url) f.key.key hsh f.iv = .error () →
      hate_heif_message env rooms evt =
        ⟨⟨[f.url], [], []⟩, .error .integrityMismatch, evt.content⟩) ∧
    (∀ e, (hate_heif_message env rooms evt).outcome = .ok (.published e) →
      ∃ data, env.decrypt_attachment (env.download_media f.url) f.key.key hsh f.iv = .ok data) := by
  constructor
  · intro hdec
    rw [run_enc_fetch env rooms evt i f hroom hkind hinfo hmime hurl hfile]
    simp [download_encrypted_media, hhash, hdec]
  · intro e h
    obtain ⟨_, _, data, _, _, _, _, hpath, _, _, _⟩ := published_spec env rooms evt e h
    rcases hpath with ⟨_, hurl2, _⟩ | ⟨_, _, f2, hF2, _, hdd⟩
    · rw [hurl] at hurl2; cases hurl2
    · rw [hfile] at hF2
      injection hF2 with hf2
      subst hf2
      simp only [download_encrypted_media, hhash] at hdd
      split at hdd
      · cases hdd
      · next plain heq => exact ⟨plain, heq⟩

/-- Witness for C3: a concrete tampered encrypted message aborts with `integrityMismatch` and publishes nothing. -/
theorem C3_witness :
    hate_heif_message env0 none evtEncBad =
      ⟨⟨[fBad.url], [], []⟩, .error .integrityMismatch, evtEncBad.content⟩ :=
  (C3_integrity env0 none evtEncBad
    { mimetype := some "image/heic", width := some 5, height := some 5 } fBad "h-tampered"
    (by decide) (Or.inl rfl) rfl rfl rfl rfl (by decide)).1 (by decide)

/-- Claim C4: eligibility requires the declared MIME type to equal "image/heic" exactly; any message whose declared MIME type differs in any character (case or whitespace included) is skipped unprocessed with no side effects. -/
theorem C4_mime_exact (env : Env) (rooms : Option (List String)) (evt : MessageEvent)
    (i : ImageInfo)
    (hroom : roomPass rooms evt.room_id) (hkind : kindPass evt.content)
    (hinfo : evt.content.info = some i) (hmime : i.mimetype ≠ some "image/heic") :
    hate_heif_message env rooms evt = ⟨Effects.nil, .ok .skippedMime, evt.content⟩ :=
  run_skip_mime env rooms evt i hroom hkind hinfo hmime

/-- Witness for C4: a message declaring "image/HEIC" (case difference only) is skipped. -/
theorem C4_witness :
    evtBadMime.content.info =
      some { mimetype := some "image/HEIC", width := some 5, height := some 5 } ∧
    hate_heif_message env0 none evtBadMime =
      ⟨Effects.nil, .ok .skippedMime, evtBadMime.content⟩ :=
  ⟨rfl, C4_mime_exact env0 none evtBadMime
    { mimetype := some "image/HEIC", width := some 5, height := some 5 }
    (by decide) (Or.inl rfl) rfl (by decide)⟩

/-- Claim C5: an absent or empty configured room allow-list puts all rooms in scope (the room check never skips), while a non-empty allow-list makes any message from an unlisted room ineligible regardless of its MIME type or kind. -/
theorem C5_allowlist (env : Env) (evt : MessageEvent) (cfg : List String) :
    (HateHeifBot_start none = none ∧ (cfg = [] → HateHeifBot_start (some cfg) = none)) ∧
    ((hate_heif_message env none evt).outcome ≠ .ok .skippedRoom) ∧
    (cfg ≠ [] → evt.room_id ∉ cfg →
      hate_heif_message env (HateHeifBot_start (some cfg)) evt =
        ⟨Effects.nil, .ok .skippedRoom, evt.content⟩) := by
  refine ⟨⟨rfl, ?_⟩, no_room_skip env evt, ?_⟩
  · intro hempty
    subst hempty
    rfl
  · intro hne hnotin
    have hst : HateHeifBot_start (some cfg) = some cfg := by
      simp [HateHeifBot_start, truthyRooms, hne]
    rw [hst]
    simp only [hate_heif_message]
    rw [if_pos ⟨by simp [truthyRooms, hne], by simpa using hnotin⟩]

/-- Witness for C5: with allow-list {"!abc:example.org"} a message from "!xyz:example.org" is skipped for the room check. -/
theorem C5_witness :
    hate_heif_message env0 (HateHeifBot_start (some ["!abc:example.org"])) evtXyz =
      ⟨Effects.nil, .ok .skippedRoom, evtXyz.content⟩ :=
  (C5_allowlist env0 evtXyz ["!abc:example.org"]).2.2 (by decide) (by decide)

/-- Claim C6: for every successful conversion, the width and height attached to the published message are the dimensions obtained by decoding the re-encoded JPEG output, not the sender-declared dimensions (which do not appear in the conclusion at all). -/
theorem C6_dimensions (env : Env) (rooms : Option (List String)) (evt : MessageEvent) (e : Bool)
    (h : (hate_heif_message env rooms evt).outcome = .ok (.published e)) :
    ∃ data img_in img_tst,
      fetch_data env evt.content = some data ∧
      env.image_open data = .ok img_in ∧
      env.image_open (env.image_save_jpeg img_in) = .ok img_tst ∧
      ∃ m, (hate_heif_message env rooms evt).effects.sent = [(evt.room_id, m)] ∧
        m.info = some { mimetype := some "image/jpeg",
                        width := some img_tst.width, height := some img_tst.height } := by
  obtain ⟨i, dl, data, img_in, img_tst, hI, hmime, hpath, ho1, ho2, hres⟩ :=
    published_spec env rooms evt e h
  simp only [] at hres
  have hfd : fetch_data env evt.content = some data := by
    rcases hpath with ⟨he, hurl, hdl, hdata⟩ | ⟨he, hurl, f, hF, hdl, hdd⟩
    · subst hdl; subst hdata; simp [fetch_data, hurl]
    · simp [fetch_data, hurl, hF, hdd, Except.toOption]
  refine ⟨data, img_in, img_tst, hfd, ho1, ho2, ?_⟩
  cases e
  · rw [hres]
    simp only [Bool.false_eq_true, if_false, send_unencrypted_message]
    exact ⟨_, rfl, rfl⟩
  · rw [hres]
    simp only [if_true, send_encrypted_message]
    exact ⟨_, rfl, rfl⟩

/-- Witness for C6: a concrete run whose declared size 5 by 5 is replaced by the measured 7 by 9. -/
theorem C6_witness :
    (hate_heif_message env0 none evtPlain).outcome = .ok (.published false) ∧
    ∃ data img_in img_tst,
      fetch_data env0 evtPlain.content = some data ∧
      env0.image_open data = .ok img_in ∧
      env0.image_open (env0.image_save_jpeg img_in) = .ok img_tst ∧
      ∃ m, (hate_heif_message env0 none evtPlain).effects.sent = [(evtPlain.room_id, m)] ∧
        m.info = some { mimetype := some "image/jpeg",
                        width := some img_tst.width, height := some img_tst.height } :=
  ⟨by decide, C6_dimensions env0 none evtPlain false (by decide)⟩

/-- Claim C7: a message failing any eligibility rule (room not in a non-empty allow-list, kind neither Image nor File, or MIME mismatch) is skipped with zero side effects, a non-published outcome and no exception; the handler is a pure function of its inputs, so a second run on the same message behaves identically. -/
theorem C7_skip_no_effects (env : Env) (rooms : Option (List String)) (evt : MessageEvent)
    (h : (truthyRooms rooms = true ∧ evt.room_id ∉ rooms.getD []) ∨
         (evt.content.msgtype ≠ MessageType.image ∧ evt.content.msgtype ≠ MessageType.file) ∨
         (roomPass rooms evt.room_id ∧ kindPass evt.content ∧
           ∃ i, evt.content.info = some i ∧ i.mimetype ≠ some "image/heic")) :
    ∃ o, hate_heif_message env rooms evt = ⟨Effects.nil, .ok o, evt.content⟩ ∧
      ∀ b, o ≠ .published b := by
  rcases h with hr | hk | ⟨hroom, hkind, i, hinfo, hmime⟩
  · refine ⟨.skippedRoom, ?_, by simp⟩
    simp only [hate_heif_message]
    rw [if_pos hr]
  · by_cases hr : truthyRooms rooms = true ∧ evt.room_id ∉ rooms.getD []
    · refine ⟨.skippedRoom, ?_, by simp⟩
      simp only [hate_heif_message]
      rw [if_pos hr]
    · refine ⟨.skippedKind, ?_, by simp⟩
      simp only [hate_heif_message]
      rw [if_neg hr, if_pos hk]
  · exact ⟨.skippedMime, run_skip_mime env rooms evt i hroom hkind hinfo hmime, by simp⟩

/-- Witness for C7: a concrete MIME-mismatching message produces the empty effect record. -/
theorem C7_witness :
    ∃ o, hate_heif_message env0 none evtBadMime = ⟨Effects.nil, .ok o, evtBadMime.content⟩ ∧
      ∀ b, o ≠ .published b :=
  C7_skip_no_effects env0 none evtBadMime
    (Or.inr (Or.inr ⟨by decide, Or.inl rfl,
      { mimetype := some "image/HEIC", width := some 5, height := some 5 }, rfl, by decide⟩))

/-- Counterexample to C8 as stated: a message of kind IMAGE whose media info object is absent makes the handler raise an attribute error (the Python source dereferences `content.info.mimetype`), rather than being treated as ineligible. -/
theorem C8_counterexample :
    evtNoInfo.content.info = none ∧ evtNoInfo.content.msgtype = MessageType.image ∧
    (hate_heif_message env0 none evtNoInfo).outcome = .error .attributeError :=
  ⟨rfl, rfl, by decide⟩

/-- Claim C8 (amended): for messages that pass the room and kind checks, the eligibility evaluation never throws when the media info object is present — a non-matching or missing MIME type yields a clean skip — but a message with an absent media info object raises an attribute error instead of being ineligible. -/
theorem C8_amended_total (env : Env) (rooms : Option (List String)) (evt : MessageEvent)
    (hroom : roomPass rooms evt.room_id) (hkind : kindPass evt.content) :
    (evt.content.info = none →
      hate_heif_message env rooms evt = ⟨Effects.nil, .error .attributeError, evt.content⟩) ∧
    (∀ i, evt.content.info = some i → i.mimetype ≠ some "image/heic" →
      hate_heif_message env rooms evt = ⟨Effects.nil, .ok .skippedMime, evt.content⟩) :=
  ⟨fun hinfo => run_info_none env rooms evt hroom hkind hinfo,
   fun i hinfo hmime => run_skip_mime env rooms evt i hroom hkind hinfo hmime⟩

/-- Witness for C8 (amended): the concrete no-info message raises the attribute error. -/
theorem C8_witness :
    hate_heif_message env0 none evtNoInfo =
      ⟨Effects.nil, .error .attributeError, evtNoInfo.content⟩ :=
  (C8_amended_total env0 none evtNoInfo (by decide) (Or.inl rfl)).1 rfl

/-- Counterexample to C9 as stated: a successful conversion overwrites the inbound event's declared width/height in place — after the run the event content differs from the original (5 by 5 became 7 by 9). -/
theorem C9_counterexample :
    evtPlain.content.info = some { mimetype := some "image/heic", width := some 5, height := some 5 } ∧
    (hate_heif_message env0 none evtPlain).finalContent ≠ evtPlain.content ∧
    (hate_heif_message env0 none evtPlain).finalContent.info =
      some { mimetype := some "image/heic", width := some 7, height := some 9 } := by
  refine ⟨rfl, by decide, by decide⟩

/-- Claim C9 (amended): the inbound message is left completely unchanged on every non-publishing path, but on a successful conversion the handler overwrites `content.info.width` and `content.info.height` in place with the measured output dimensions, leaving every other field unchanged. -/
theorem C9_amended (env : Env) (rooms : Option (List String)) (evt : MessageEvent) :
    ((∀ e, (hate_heif_message env rooms evt).outcome ≠ .ok (.published e)) →
      (hate_heif_message env rooms evt).finalContent = evt.content) ∧
    (∀ e, (hate_heif_message env rooms evt).outcome = .ok (.published e) →
      ∃ i w h2, evt.content.info = some i ∧
        (hate_heif_message env rooms evt).finalContent =
          { evt.content with info := some { i with width := some w, height := some h2 } }) := by
  constructor
  · intro hnp
    rcases final_content_cases env rooms evt with hc | ⟨e, he⟩
    · exact hc
    · exact absurd he (hnp e)
  · intro e h
    obtain ⟨i, dl, data, img_in, img_tst, hI, hmime, hpath, ho1, ho2, hres⟩ :=
      published_spec env rooms evt e h
    simp only [] at hres
    refine ⟨i, img_tst.width, img_tst.height, hI, ?_⟩
    rw [hres]

/-- Witness for C9 (amended): the concrete plain run mutates only the info dimensions. -/
theorem C9_witness :
    (hate_heif_message env0 none evtPlain).outcome = .ok (.published false) ∧
    (∃ i w h2, evtPlain.content.info = some i ∧
      (hate_heif_message env0 none evtPlain).finalContent =
        { evtPlain.content with info := some { i with width := some w, height := some h2 } }) :=
  ⟨by decide, (C9_amended env0 none evtPlain).2 false (by decide)⟩

/-- Claim C10: every successfully converted message is republished with message kind IMAGE, body and upload filename "image.jpg" and content type "image/jpeg", regardless of the inbound message's kind. -/
theorem C10_output_shape (env : Env) (rooms : Option (List String)) (evt : MessageEvent) (e : Bool)
    (h : (hate_heif_message env rooms evt).outcome = .ok (.published e)) :
    ∃ b m,
      (hate_heif_message env rooms evt).effects.uploads = [(b, "image/jpeg", "image.jpg")] ∧
      (hate_heif_message env rooms evt).effects.sent = [(evt.room_id, m)] ∧
      m.msgtype = MessageType.image ∧ m.body = "image.jpg" ∧
      ∃ i2, m.info = some i2 ∧ i2.mimetype = some "image/jpeg" := by
  obtain ⟨i, dl, data, img_in, img_tst, hI, hmime, hpath, ho1, ho2, hres⟩ :=
    published_spec env rooms evt e h
  simp only [] at hres
  cases e
  · rw [hres]
    simp only [Bool.false_eq_true, if_false, send_unencrypted_message]
    exact ⟨env.image_save_jpeg img_in, _, rfl, rfl, rfl, rfl, _, rfl, rfl⟩
  · rw [hres]
    simp only [if_true, send_encrypted_message]
    exact ⟨(env.encrypt_attachment (env.image_save_jpeg img_in)).1, _, rfl, rfl, rfl, rfl, _, rfl, rfl⟩

/-- Witness for C10: an inbound message of kind FILE is republished as an IMAGE message. -/
theorem C10_witness :
    evtEnc.content.msgtype = MessageType.file ∧
    ∃ b m, (hate_heif_message env0 none evtEnc).effects.uploads = [(b, "image/jpeg", "image.jpg")] ∧
      (hate_heif_message env0 none evtEnc).effects.sent = [(evtEnc.room_id, m)] ∧
      m.msgtype = MessageType.image ∧ m.body = "image.jpg" ∧
      ∃ i2, m.info = some i2 ∧ i2.mimetype = some "image/jpeg" :=
  ⟨rfl, C10_output_shape env0 none evtEnc true (by decide)⟩
